import Mathlib

/-!
Verification development for the GENAI-Intelligence-Studio orchestration core:
the per-user ranked memory store (`src/memory/memory_store.py`), the mode
router and workflow graph (`src/graph_builder/graph_builder.py`) and the
memory read/write stage functions (`src/node/agentic_nodes.py`).

Modelling conventions:
* Python strings are Lean `String`s; the Python string operations used by the
  code (`str.lower`, `str.strip`, `str.split()`, substring containment,
  lexicographic comparison) are re-implemented structurally on `List Char`
  so that every definition evaluates inside the kernel.  `Char.toLower` and
  `Char.isWhitespace` agree with Python on the ASCII data the system handles.
* Scores are Python floats whose literals are all decimal tenths
  (3.0, 0.5, 0.3, 2.0, 1.0, 5.0); every reachable comparison is exact in
  both binary floating point and decimal.  They are embedded as `Int`s
  measured in tenths of a point (3.0 ↦ 30, 0.5 ↦ 5, 0.3 ↦ 3, …), an exact
  representation of the arithmetic the source performs.
* The duplicate-overlap ratio `len(a & b) / max(len(a), len(b))` is embedded
  as an exact rational (`mkRat`), compared against 0.8 = `mkRat 8 10`;
  4/5 == 0.8 holds in floating point exactly as it does in ℚ.
* `md5(normalized)[:12]` is a deterministic fingerprint of the normalized
  (lower-cased, stripped) content; it is embedded as the normalized content
  itself, which preserves "equal normalized content ↔ equal hash".
* The store dict `{user_id: {"memories": [...]}}` is an association list;
  the wall clock (`datetime.utcnow().isoformat()`) is an explicit `now`
  argument threaded into every operation that stamps a snippet.
-/

/-! ### Python string primitives on `List Char` -/

/-- Python `str.lower()` (character-wise; coincides on ASCII). -/
def strLower (s : String) : String := ⟨s.data.map Char.toLower⟩

/-- Python `str.strip()` on a character list: drop leading and trailing
whitespace. -/
def trimChars (l : List Char) : List Char :=
  ((l.dropWhile Char.isWhitespace).reverse.dropWhile Char.isWhitespace).reverse

/-- Python `str.strip()`. -/
def strTrim (s : String) : String := ⟨trimChars s.data⟩

/-- Whether `p` is an initial segment of `l`. -/
def startsWithL : List Char → List Char → Bool
  | [], _ => true
  | _ :: _, [] => false
  | p :: ps, c :: cs => p == c && startsWithL ps cs

/-- Whether `pat` occurs contiguously inside `l` (Python `pat in s`). -/
def occursIn (pat : List Char) : List Char → Bool
  | [] => pat.isEmpty
  | c :: rest => startsWithL pat (c :: rest) || occursIn pat rest

/-- Python `pat in s` substring containment. -/
def containsSub (s pat : String) : Bool := occursIn pat.data s.data

/-- Worker for whitespace splitting: `acc` is the current word reversed. -/
def wordsAux : List Char → List Char → List (List Char)
  | [], acc => if acc.isEmpty then [] else [acc.reverse]
  | c :: cs, acc =>
    if c.isWhitespace then
      (if acc.isEmpty then wordsAux cs [] else acc.reverse :: wordsAux cs [])
    else wordsAux cs (c :: acc)

/-- Python `s.split()` — split on whitespace runs, dropping empty words. -/
def strWords (s : String) : List (List Char) := wordsAux s.data []

/-- Python `set(s.lower().split())`: the deduplicated lower-cased word list. -/
def tokenSet (s : String) : List (List Char) := (strWords (strLower s)).dedup

/-- Code-point comparison of characters (Python `<` on one-char strings). -/
def charLtB (a b : Char) : Bool := a.val < b.val

/-- Lexicographic `≤` on character lists (Python string comparison). -/
def listLeChar : List Char → List Char → Bool
  | [], _ => true
  | _ :: _, [] => false
  | a :: as, b :: bs => if a == b then listLeChar as bs else charLtB a b

/-- Python `s1 <= s2` string comparison (used on ISO timestamps). -/
def strLeB (a b : String) : Bool := listLeChar a.data b.data

/-- `"\n".join(...)` (Python). -/
def joinNl : List String → String
  | [] => ""
  | [s] => s
  | s :: rest => s ++ "\n" ++ joinNl rest

/-! ### A stable descending sort

Python `list.sort(key=k, reverse=True)` is a stable sort: elements whose keys
compare equal keep their original relative order.  `sortDesc ge` is the
stable descending insertion sort for the comparator `ge a b` = "`a`'s key is
greater than or equal to `b`'s key": each element is inserted after every
already-placed element whose key is ≥ its own, which is exactly the stable
descending order Python produces. -/

/-- Insert `x` into the descending-sorted `l`, after all `y` with `ge y x`. -/
def insDesc (ge : α → α → Bool) (x : α) : List α → List α
  | [] => [x]
  | y :: ys => if ge y x then y :: insDesc ge x ys else x :: y :: ys

/-- Stable descending sort by repeated insertion, processing left to right. -/
def sortDesc (ge : α → α → Bool) (l : List α) : List α :=
  l.foldl (fun acc x => insDesc ge x acc) []

/-! ### `MemorySnippet` (`memory_store.py`, lines 21–61) -/

/-- One stored memory snippet.  `score` is in tenths of a point
(the float 3.0 is `30`). -/
structure MemorySnippet where
  content : String
  score : Int
  created_at : String
  category : String
  content_hash : String
deriving DecidableEq, Repr

/-- `MemorySnippet._compute_hash`: `md5(content.lower().strip())[:12]`,
embedded as the normalized content itself (a deterministic fingerprint with
"equal normalized content ↔ equal hash"). -/
def compute_hash (content : String) : String := strTrim (strLower content)

/-- `MemorySnippet.__init__`: the hash is always derived from the content. -/
def mkSnippet (content : String) (score : Int) (created_at : String)
    (category : String) : MemorySnippet :=
  ⟨content, score, created_at, category, compute_hash content⟩

/-! ### `MemoryStore` scoring, dedup, pruning (`memory_store.py`) -/

/-- `MemoryStore.MAX_MEMORIES_PER_USER`. -/
def MAX_MEMORIES_PER_USER : Nat := 10

/-- `MemoryStore.MIN_SCORE_THRESHOLD` = 2.0, in tenths. -/
def MIN_SCORE_THRESHOLD : Int := 20

/-- The action-word list of `MemoryStore._score_memory`. -/
def action_words : List String :=
  ["build", "create", "implement", "design", "develop", "want", "need", "goal"]

/-- The generic-phrase list of `MemoryStore._score_memory`. -/
def generic_phrases : List String :=
  ["user wants", "user is interested", "general interest"]

/-- `MemoryStore._score_memory` (lines 137–170), in tenths of a point:
base 3.0; +0.5 for category "product"; +0.5 for an action word; −0.5 for a
generic phrase; +0.3 for length > 50; −0.5 for length < 20; clamped to
[1.0, 5.0]. -/
def score_memory (content : String) (category : String) : Int :=
  let content_lower := strLower content
  let score : Int := 30
  let score := if category == "product" then score + 5 else score
  let score := if action_words.any (fun w => containsSub content_lower w)
    then score + 5 else score
  let score := if generic_phrases.any (fun p => containsSub content_lower p)
    then score - 5 else score
  let score := if content.length > 50 then score + 3 else score
  let score := if content.length < 20 then score - 5 else score
  max 10 (min 50 score)

/-- `len(new_words & existing_words)` for deduplicated word lists. -/
def interCard (a b : List (List Char)) : Nat :=
  (a.filter (fun t => b.contains t)).length

/-- `MemoryStore._is_duplicate` (lines 172–189): an existing snippet with the
same content hash, or with strictly more than 80% word-set overlap
(`len(a ∩ b) / max(len a, len b) > 0.8`, both sets non-empty), makes the new
content a duplicate. -/
def is_duplicate (new_content : String) (existing : List MemorySnippet) : Bool :=
  let new_hash := compute_hash new_content
  let new_words := tokenSet new_content
  existing.any fun mem =>
    mem.content_hash == new_hash ||
    (let existing_words := tokenSet mem.content
     !new_words.isEmpty && !existing_words.isEmpty &&
       decide (mkRat (interCard new_words existing_words)
                 (max new_words.length existing_words.length) > mkRat 8 10))

/-- The sort key comparator of `_prune_memories`:
`ge a b` ↔ `(a.score, a.created_at) ≥ (b.score, b.created_at)`
lexicographically, matching `sort(key=(score, created_at), reverse=True)`. -/
def pruneKeyGe (a b : MemorySnippet) : Bool :=
  b.score < a.score || (b.score == a.score && strLeB b.created_at a.created_at)

/-- `MemoryStore._prune_memories` (lines 191–203): drop snippets below the
score threshold, sort by (score, created_at) descending (stably), keep the
top `MAX_MEMORIES_PER_USER`. -/
def prune_memories (memories : List MemorySnippet) : List MemorySnippet :=
  let memories := memories.filter (fun m => decide (MIN_SCORE_THRESHOLD ≤ m.score))
  let sorted := sortDesc pruneKeyGe memories
  sorted.take MAX_MEMORIES_PER_USER

/-- `MemoryStore.get_memory` (lines 205–225) on one user's snippet list:
empty string when there are none; otherwise filter by category when one is
given (keeping "general"), sort by score descending (stably), join the top 5
contents with newlines. -/
def get_memory (memories : List MemorySnippet) (category : Option String) : String :=
  if memories.isEmpty then ""
  else
    let memories := match category with
      | none => memories
      | some c => memories.filter (fun m => m.category == c || m.category == "general")
    let sorted := sortDesc (fun a b => decide (b.score ≤ a.score)) memories
    let top_memories := sorted.take 5
    joinNl (top_memories.map (fun m => m.content))

/-- `MemoryStore.save_memory` (lines 234–282) on one user's snippet list.
Returns (saved?, the user's list afterwards).  Rejects empty or <5-character
content, duplicates, and scores below the threshold; otherwise appends the
new snippet (stamped `now`) and prunes.  An explicit `score` is used as
given — only a missing score is computed by the heuristic. -/
def save_memory (now : String) (memories : List MemorySnippet) (snippet : String)
    (category : String) (score : Option Int) : Bool × List MemorySnippet :=
  if snippet == "" || (strTrim snippet).length < 5 then (false, memories)
  else
    let snippet := strTrim snippet
    if is_duplicate snippet memories then (false, memories)
    else
      let sc := match score with
        | none => score_memory snippet category
        | some v => v
      if sc < MIN_SCORE_THRESHOLD then (false, memories)
      else
        let new_memory := mkSnippet snippet sc now category
        (true, prune_memories (memories ++ [new_memory]))

/-- The in-place score mutation loop of `MemoryStore.update_score`
(first matching hash only, clamped to [1.0, 5.0]). -/
def set_score_first : List MemorySnippet → String → Int → List MemorySnippet
  | [], _, _ => []
  | m :: rest, h, ns =>
    if m.content_hash == h then { m with score := max 10 (min 50 ns) } :: rest
    else m :: set_score_first rest h ns

/-- `MemoryStore.update_score` (lines 284–297) on one user's snippet list. -/
def update_score (memories : List MemorySnippet) (content_hash : String)
    (new_score : Int) : List MemorySnippet :=
  prune_memories (set_score_first memories content_hash new_score)

/-- `MemoryStore.delete_memory` (lines 299–305) on one user's snippet list. -/
def delete_memory (memories : List MemorySnippet) (content_hash : String) :
    List MemorySnippet :=
  memories.filter (fun m => m.content_hash != content_hash)

/-! ### The store dict (`self._store`) -/

/-- `{user_id: {"memories": [...]}}` as an association list. -/
abbrev Store := List (String × List MemorySnippet)

/-- `MemoryStore._get_user_memories`: the user's list, `[]` when absent. -/
def getUser (store : Store) (user_id : String) : List MemorySnippet :=
  match store.find? (fun p => p.1 == user_id) with
  | some p => p.2
  | none => []

/-- `MemoryStore._set_user_memories`: replace the user's entry in place, or
append a fresh one (Python dicts keep insertion order). -/
def setUser (store : Store) (user_id : String) (memories : List MemorySnippet) :
    Store :=
  if store.any (fun p => p.1 == user_id) then
    store.map (fun p => if p.1 == user_id then (user_id, memories) else p)
  else store ++ [(user_id, memories)]

/-- `MemoryStore.save_memory` at the store level: the dict is written
(`_set_user_memories` + `_save`) only on the accepting path; every rejecting
path returns before touching it. -/
def save_memory_store (now : String) (store : Store) (user_id : String)
    (snippet : String) (category : String) (score : Option Int) : Bool × Store :=
  let r := save_memory now (getUser store user_id) snippet category score
  if r.1 then (true, setUser store user_id r.2) else (false, store)

/-! ### `MemoryStore._load` (lines 91–118) -/

/-- One user's value in the persisted JSON: the old format (a list of
strings), the new format (a record with a "memories" list), or anything
else. -/
inductive UserValue where
  | strList (items : List String)
  | dict (memories : List MemorySnippet)
  | other
deriving DecidableEq

/-- What reading the persistence file can yield: the file does not exist,
opening/reading/parsing raised (unreadable or corrupt data), or a parsed
top-level JSON object. -/
inductive LoadResult where
  | missing
  | failed
  | parsed (data : List (String × UserValue))
deriving DecidableEq

/-- The per-user conversion of `_load`: old-format lists become snippets with
score 3.0 (empty strings skipped, stamped `now`), new-format records are kept,
anything else becomes an empty memory list. -/
def convert_user (now : String) : UserValue → List MemorySnippet
  | .strList items => (items.filter (fun s => s != "")).map
      (fun s => mkSnippet s 30 now "general")
  | .dict memories => memories
  | .other => []

/-- `MemoryStore._load`: a missing file and any raised exception both yield
the empty store; a parsed object is converted user by user.  The function is
total — no outcome of reading the file escapes as an error. -/
def load (now : String) : LoadResult → Store
  | .missing => []
  | .failed => []
  | .parsed data => data.map (fun p => (p.1, convert_user now p.2))

/-! ### Router and workflow graph (`graph_builder.py`) -/

/-- `_route_by_mode` (lines 9–19).  The state's `mode` field may be absent
(`state.get("mode", "docs")`), hence `Option String`.  Total: no failure
path exists. -/
def route_by_mode (mode : Option String) : String :=
  let m := mode.getD "docs"
  if m == "product" then "product"
  else if m == "video" then "video"
  else if m == "research" then "research"
  else "docs"

/-- The unconditional edges added in `GraphBuilder.build` (lines 66–83);
`none` is the END sentinel. -/
def graph_edge : String → Option String
  | "memory_read" => some "retriever"
  | "retriever" => some "video_precontext"
  | "video_precontext" => some "video_chapters"
  | "video_chapters" => some "tools"
  | "tools" => some "react_agent"
  | "react_agent" => some "writer"
  | "product_builder" => some "writer"
  | "research_precontext" => some "research_agent"
  | "research_agent" => some "writer"
  | "writer" => some "memory_write"
  | _ => none

/-- The conditional-edge mapping of `build` (lines 55–64) from the router's
branch name to the branch's first node.  `route_by_mode` only produces the
four listed names; the catch-all cannot be reached from it. -/
def branch_entry : String → String
  | "docs" => "memory_read"
  | "video" => "memory_read"
  | "product" => "product_builder"
  | "research" => "research_precontext"
  | _ => "memory_read"

/-- Follow `graph_edge` for at most `fuel` nodes, recording each visited
node. -/
def walk : Nat → String → List String
  | 0, _ => []
  | fuel + 1, node =>
    node :: (match graph_edge node with
      | none => []
      | some next => walk fuel next)

/-- The sequence of nodes one `graph.invoke` run schedules for a given mode:
the entry point "router", then the branch chosen by `_route_by_mode`,
following the unconditional edges to END.  Fuel 12 exceeds the longest
chain. -/
def run_trace (mode : Option String) : List String :=
  "router" :: walk 12 (branch_entry (route_by_mode mode))

/-! ### Stage functions (`agentic_nodes.py`) -/

/-- `AgenticNodes.memory_read_node` (lines 86–91): the value returned for
`memory_snippet`.  Mode "video" short-circuits to `None`; otherwise the
store is read for the user (default `"default_user"`) and an empty string
becomes `None` (`snippet or None`). -/
def memory_read_node (store : Store) (mode : Option String)
    (user_id : Option String) : Option String :=
  if mode == some "video" then none
  else
    let snippet := get_memory (getUser store (user_id.getD "default_user")) none
    if snippet == "" then none else some snippet

/-- `AgenticNodes.video_precontext_node` (lines 154–171): any mode other
than "video" returns the empty update `{}` (modelled `none`); in video mode
the LLM response becomes the `tool_context` update. -/
def video_precontext_node (mode : Option String) (llm_response : String) :
    Option String :=
  if mode == some "video" then some llm_response else none

/-- A stage's partial state update: the list of (field, value) assignments it
returns; `memory_write_node` always returns `{}`. -/
abbrev StateUpdate := List (String × String)

/-- `AgenticNodes.memory_write_node` (lines 572–588): a falsy
`memory_to_save` (absent or empty) leaves the store untouched; otherwise the
store's `save_memory` runs with the run's user id (default
`"default_user"`), the snippet, and the run's mode (default "docs") as
category.  The returned state update is `{}` on every path. -/
def memory_write_node (now : String) (store : Store)
    (memory_to_save : Option String) (mode : Option String)
    (user_id : Option String) : StateUpdate × Store :=
  let m := mode.getD "docs"
  let uid := user_id.getD "default_user"
  match memory_to_save with
  | none => ([], store)
  | some c =>
    if c == "" then ([], store)
    else ([], (save_memory_store now store uid c m none).2)

/-! ### Helper lemmas about the sort, the prune and the save -/

theorem mem_insDesc {α : Type} (ge : α → α → Bool) (a x : α) (l : List α) :
    x ∈ insDesc ge a l ↔ x = a ∨ x ∈ l := by
  induction l with
  | nil => simp [insDesc]
  | cons y ys ih =>
    simp only [insDesc]
    split
    · simp only [List.mem_cons, ih]
      tauto
    · simp only [List.mem_cons]

theorem mem_foldl_insDesc {α : Type} (ge : α → α → Bool) (x : α) (l acc : List α) :
    x ∈ l.foldl (fun acc y => insDesc ge y acc) acc ↔ x ∈ acc ∨ x ∈ l := by
  induction l generalizing acc with
  | nil => simp
  | cons y ys ih =>
    rw [List.foldl_cons, ih, mem_insDesc]
    simp only [List.mem_cons]
    tauto

theorem mem_sortDesc {α : Type} (ge : α → α → Bool) (x : α) (l : List α) :
    x ∈ sortDesc ge l ↔ x ∈ l := by
  unfold sortDesc
  rw [mem_foldl_insDesc]
  simp

theorem mem_prune_memories (m : MemorySnippet) (l : List MemorySnippet)
    (h : m ∈ prune_memories l) : m ∈ l ∧ MIN_SCORE_THRESHOLD ≤ m.score := by
  unfold prune_memories at h
  have h1 := List.take_subset _ _ h
  rw [mem_sortDesc] at h1
  have h2 := List.mem_filter.mp h1
  exact ⟨h2.1, by simpa using h2.2⟩

theorem length_prune_memories (l : List MemorySnippet) :
    (prune_memories l).length ≤ MAX_MEMORIES_PER_USER := by
  unfold prune_memories
  exact List.length_take_le _ _

theorem score_memory_range (content category : String) :
    10 ≤ score_memory content category ∧ score_memory content category ≤ 50 := by
  unfold score_memory
  exact ⟨le_max_left _ _, max_le (by norm_num) (min_le_left _ _)⟩

theorem save_memory_snd_cases (now : String) (ms : List MemorySnippet)
    (s c : String) (sc : Option Int) :
    (save_memory now ms s c sc).2 = ms ∨
    ∃ v : Int, MIN_SCORE_THRESHOLD ≤ v ∧
      (sc = some v ∨ (sc = none ∧ v = score_memory (strTrim s) c)) ∧
      (save_memory now ms s c sc).2 =
        prune_memories (ms ++ [mkSnippet (strTrim s) v now c]) := by
  cases sc with
  | none =>
    simp only [save_memory]
    split
    · exact Or.inl rfl
    · split
      · exact Or.inl rfl
      · split
        · exact Or.inl rfl
        · exact Or.inr ⟨score_memory (strTrim s) c, by omega, Or.inr ⟨trivial, rfl⟩, rfl⟩
  | some v =>
    simp only [save_memory]
    split
    · exact Or.inl rfl
    · split
      · exact Or.inl rfl
      · split
        · exact Or.inl rfl
        · exact Or.inr ⟨v, by omega, Or.inl rfl, rfl⟩

theorem mem_set_score_first (l : List MemorySnippet) (h : String) (ns : Int)
    (m : MemorySnippet) (hm : m ∈ set_score_first l h ns) :
    m ∈ l ∨ ∃ m0 ∈ l, m = { m0 with score := max 10 (min 50 ns) } := by
  induction l with
  | nil => simp [set_score_first] at hm
  | cons a rest ih =>
    simp only [set_score_first] at hm
    split at hm
    · rcases List.mem_cons.mp hm with h1 | h1
      · exact Or.inr ⟨a, List.mem_cons_self a rest, h1⟩
      · exact Or.inl (List.mem_cons_of_mem a h1)
    · rcases List.mem_cons.mp hm with h1 | h1
      · exact Or.inl (h1 ▸ List.mem_cons_self a rest)
      · rcases ih h1 with h2 | ⟨m0, hm0, he⟩
        · exact Or.inl (List.mem_cons_of_mem a h2)
        · exact Or.inr ⟨m0, List.mem_cons_of_mem a hm0, he⟩

theorem route_cases (mode : Option String) :
    (route_by_mode mode = "product" ∧ mode = some "product") ∨
    (route_by_mode mode = "video" ∧ mode = some "video") ∨
    (route_by_mode mode = "research" ∧ mode = some "research") ∨
    (route_by_mode mode = "docs" ∧ mode ≠ some "video") := by
  cases mode with
  | none =>
    refine Or.inr (Or.inr (Or.inr ⟨by decide, by simp⟩))
  | some s =>
    by_cases h1 : s = "product"
    · subst h1; exact Or.inl ⟨by decide, rfl⟩
    · by_cases h2 : s = "video"
      · subst h2; exact Or.inr (Or.inl ⟨by decide, rfl⟩)
      · by_cases h3 : s = "research"
        · subst h3; exact Or.inr (Or.inr (Or.inl ⟨by decide, rfl⟩))
        · refine Or.inr (Or.inr (Or.inr ⟨?_, by simp [h2]⟩))
          simp [route_by_mode, h1, h2, h3]

theorem save_memory_preserves_inv (now : String) (ms : List MemorySnippet)
    (s c : String) (sc : Option Int)
    (h1 : ms.length ≤ MAX_MEMORIES_PER_USER)
    (h2 : ∀ m ∈ ms, MIN_SCORE_THRESHOLD ≤ m.score) :
    (save_memory now ms s c sc).2.length ≤ MAX_MEMORIES_PER_USER ∧
      ∀ m ∈ (save_memory now ms s c sc).2, MIN_SCORE_THRESHOLD ≤ m.score := by
  rcases save_memory_snd_cases now ms s c sc with h | ⟨v, _, _, h⟩
  · rw [h]
    exact ⟨h1, h2⟩
  · rw [h]
    exact ⟨length_prune_memories _, fun m hm => (mem_prune_memories m _ hm).2⟩

/-- The arguments of one `save_memory` call. -/
structure SaveCall where
  now : String
  snippet : String
  category : String
  score : Option Int

/-- A user's memory list after a finite sequence of `save_memory` calls, run
against the fresh (empty) store. -/
def apply_saves (calls : List SaveCall) : List MemorySnippet :=
  calls.foldl (fun ms k => (save_memory k.now ms k.snippet k.category k.score).2) []

theorem apply_saves_foldl_inv (calls : List SaveCall) (ms : List MemorySnippet)
    (h1 : ms.length ≤ MAX_MEMORIES_PER_USER)
    (h2 : ∀ m ∈ ms, MIN_SCORE_THRESHOLD ≤ m.score) :
    (calls.foldl (fun ms k => (save_memory k.now ms k.snippet k.category k.score).2)
        ms).length ≤ MAX_MEMORIES_PER_USER ∧
      ∀ m ∈ calls.foldl (fun ms k => (save_memory k.now ms k.snippet k.category k.score).2)
          ms, MIN_SCORE_THRESHOLD ≤ m.score := by
  induction calls generalizing ms with
  | nil => exact ⟨h1, h2⟩
  | cons k rest ih =>
    rw [List.foldl_cons]
    have h := save_memory_preserves_inv k.now ms k.snippet k.category k.score h1 h2
    exact ih _ h.1 h.2

/-- C1: after any finite sequence of `save_memory` calls — any contents,
categories and score arguments, explicit or not — the user's persisted
memory list holds at most `MAX_MEMORIES_PER_USER` (10) snippets and every
held snippet has score ≥ `MIN_SCORE_THRESHOLD` (2.0, i.e. 20 tenths).  Each
prefix of a sequence is itself a sequence, so this is the state after each
call. -/
theorem save_sequence_invariant (calls : List SaveCall) :
    (apply_saves calls).length ≤ MAX_MEMORIES_PER_USER ∧
      ∀ m ∈ apply_saves calls, MIN_SCORE_THRESHOLD ≤ m.score :=
  apply_saves_foldl_inv calls [] (by simp [MAX_MEMORIES_PER_USER]) (by simp)

/-- C1 witness: the invariant evaluated after one concrete accepted save. -/
theorem save_sequence_invariant_witness :
    (apply_saves [⟨"2024-01-01T00:00:00", "alpha beta gamma delta", "general",
        none⟩]).length ≤ MAX_MEMORIES_PER_USER ∧
      MIN_SCORE_THRESHOLD ≤
        (mkSnippet "alpha beta gamma delta" 30 "2024-01-01T00:00:00" "general").score :=
  ⟨(save_sequence_invariant
      [⟨"2024-01-01T00:00:00", "alpha beta gamma delta", "general", none⟩]).1,
   (save_sequence_invariant
      [⟨"2024-01-01T00:00:00", "alpha beta gamma delta", "general", none⟩]).2
      _ (by decide)⟩

/-- C2 counterexample: the claim reads the overlap test as "at least 80%",
but the code fires only on strictly more than 80%.  The candidate
"alpha beta gamma delta zeta" shares exactly 4 of 5 tokens (ratio 4/5 = 80%)
with the stored "alpha beta gamma delta epsilon" and has a different
normalized hash, yet `save_memory` accepts it and the store changes. -/
theorem dedup_threshold_counterexample :
    (mkRat (interCard (tokenSet "alpha beta gamma delta zeta")
          (tokenSet "alpha beta gamma delta epsilon"))
        (max (tokenSet "alpha beta gamma delta zeta").length
          (tokenSet "alpha beta gamma delta epsilon").length) ≥ mkRat 8 10)
    ∧ (save_memory "2024-01-02T00:00:00"
        [mkSnippet "alpha beta gamma delta epsilon" 30 "2024-01-01T00:00:00" "general"]
        "alpha beta gamma delta zeta" "general" none).1 = true
    ∧ (save_memory "2024-01-02T00:00:00"
        [mkSnippet "alpha beta gamma delta epsilon" 30 "2024-01-01T00:00:00" "general"]
        "alpha beta gamma delta zeta" "general" none).2
      ≠ [mkSnippet "alpha beta gamma delta epsilon" 30 "2024-01-01T00:00:00" "general"] := by
  decide

/-- C2 (amended): if some stored snippet has the candidate's normalized
content hash, or shares strictly more than 80% token-set overlap with it
(intersection over the larger of the two lower-cased whitespace-token sets,
both non-empty; the candidate's tokens and hash are taken from its trimmed
content, which normalization makes equal to the raw candidate's), then
`save_memory` returns false and leaves the stored memories unchanged. -/
theorem near_duplicate_rejected (now : String) (memories : List MemorySnippet)
    (snippet category : String) (score : Option Int)
    (h : ∃ mem ∈ memories,
        mem.content_hash = compute_hash (strTrim snippet) ∨
        (tokenSet (strTrim snippet) ≠ [] ∧ tokenSet mem.content ≠ [] ∧
          mkRat (interCard (tokenSet (strTrim snippet)) (tokenSet mem.content))
              (max (tokenSet (strTrim snippet)).length (tokenSet mem.content).length)
            > mkRat 8 10)) :
    save_memory now memories snippet category score = (false, memories) := by
  have hdup : is_duplicate (strTrim snippet) memories = true := by
    obtain ⟨mem, hmem, hcase⟩ := h
    simp only [is_duplicate, List.any_eq_true]
    refine ⟨mem, hmem, ?_⟩
    rcases hcase with hhash | ⟨hne1, hne2, hgt⟩
    · simp [hhash]
    · simp [hne1, hne2, hgt]
  simp [save_memory, hdup]

/-- C2 witness: a concrete exact re-save is rejected and the store is
unchanged. -/
theorem near_duplicate_rejected_witness :
    save_memory "2024-01-02T00:00:00"
        [mkSnippet "the user goal is lean proofs" 35 "2024-01-01T00:00:00" "docs"]
        "the user goal is lean proofs" "docs" none
      = (false,
        [mkSnippet "the user goal is lean proofs" 35 "2024-01-01T00:00:00" "docs"]) :=
  near_duplicate_rejected _ _ _ _ _ (by decide)

/-- Modelled from the spec's scoring sentence, for comparison with the
source's `score_memory`: 3.0, +0.5 if the category is "product", +0.5 if the
lower-cased content contains an action word, −0.5 if it contains a generic
filler phrase, +0.3 if the length exceeds 50, −0.5 if the length is below
20, clamped to [1.0, 5.0] — in tenths of a point. -/
def score_formula (content category : String) : Int :=
  max 10 (min 50 (30
    + (if category == "product" then 5 else 0)
    + (if action_words.any (fun w => containsSub (strLower content) w) then 5 else 0)
    - (if generic_phrases.any (fun p => containsSub (strLower content) p) then 5 else 0)
    + (if content.length > 50 then 3 else 0)
    - (if content.length < 20 then 5 else 0)))

/-- C3: the heuristic score `save_memory` computes when no explicit score is
given equals the claim's closed formula on every content and category, and
the literal input "...build a great feature..." with category "product"
scores exactly 4.0 (40 tenths). -/
theorem score_heuristic_formula :
    (∀ content category, score_memory content category = score_formula content category)
    ∧ (∀ now memories snippet category,
        save_memory now memories snippet category none =
          save_memory now memories snippet category
            (some (score_memory (strTrim snippet) category)))
    ∧ score_memory "...build a great feature..." "product" = 40 := by
  refine ⟨fun content category => ?_, fun now memories snippet category => rfl, by decide⟩
  simp only [score_memory, score_formula]
  split_ifs <;> decide

/-- The stage order each branch of `GraphBuilder.build` follows: docs and
video share one chain (which contains the two video stages); product and
research have their own. -/
def expected_trace : String → List String
  | "product" => ["router", "product_builder", "writer", "memory_write"]
  | "research" =>
      ["router", "research_precontext", "research_agent", "writer", "memory_write"]
  | _ => ["router", "memory_read", "retriever", "video_precontext", "video_chapters",
      "tools", "react_agent", "writer", "memory_write"]

/-- C4 counterexample: a docs-mode run schedules the video-only stages
`video_precontext` and `video_chapters` — the docs and video branches share
one chain, so those stages are scheduled (as guarded no-ops) even though
docs is not video. -/
theorem docs_run_schedules_video_stages :
    route_by_mode (some "docs") = "docs"
    ∧ (some "docs" : Option String) ≠ some "video"
    ∧ "video_precontext" ∈ run_trace (some "docs")
    ∧ "video_chapters" ∈ run_trace (some "docs") := by
  decide

/-- C4 (amended): every run schedules each stage of its branch exactly once
(the trace equals the branch's fixed chain and has no duplicates); a
product-mode run never schedules `memory_read`, `retriever`, the video
stages, `react_agent` or the research stages, and a research run never
schedules the docs/video chain or `product_builder`; but docs and video
share one chain, so `video_precontext` and `video_chapters` are scheduled in
docs runs, where they return the empty update `{}` (mode-guarded no-ops). -/
theorem branch_schedule_amended (mode : Option String) :
    run_trace mode = expected_trace (route_by_mode mode)
    ∧ (run_trace mode).Nodup
    ∧ (route_by_mode mode = "product" →
        "memory_read" ∉ run_trace mode ∧ "retriever" ∉ run_trace mode ∧
        "video_precontext" ∉ run_trace mode ∧ "video_chapters" ∉ run_trace mode ∧
        "react_agent" ∉ run_trace mode ∧ "research_precontext" ∉ run_trace mode ∧
        "research_agent" ∉ run_trace mode)
    ∧ (route_by_mode mode = "research" →
        "memory_read" ∉ run_trace mode ∧ "retriever" ∉ run_trace mode ∧
        "video_precontext" ∉ run_trace mode ∧ "product_builder" ∉ run_trace mode)
    ∧ (∀ r, mode ≠ some "video" → video_precontext_node mode r = none) := by
  have hnode : ∀ r, mode ≠ some "video" → video_precontext_node mode r = none := by
    intro r hr
    simp [video_precontext_node, hr]
  rcases route_cases mode with ⟨h, hm⟩ | ⟨h, hm⟩ | ⟨h, hm⟩ | ⟨h, hm⟩ <;>
    have ht : run_trace mode = expected_trace (route_by_mode mode) := by
      simp only [run_trace, h]
      decide
  · rw [ht, h]
    exact ⟨by decide, by decide, fun _ => by decide, fun hc => absurd hc (by decide),
      hnode⟩
  · rw [ht, h]
    exact ⟨by decide, by decide, fun hc => absurd hc (by decide),
      fun hc => absurd hc (by decide), hnode⟩
  · rw [ht, h]
    exact ⟨by decide, by decide, fun hc => absurd hc (by decide), fun _ => by decide,
      hnode⟩
  · rw [ht, h]
    exact ⟨by decide, by decide, fun hc => absurd hc (by decide),
      fun hc => absurd hc (by decide), hnode⟩

/-- C4 witness: the amended property evaluated at a concrete product run. -/
theorem branch_schedule_amended_witness :
    run_trace (some "product") = expected_trace (route_by_mode (some "product"))
    ∧ "memory_read" ∉ run_trace (some "product")
    ∧ "retriever" ∉ run_trace (some "product")
    ∧ video_precontext_node (some "product") "some llm text" = none :=
  ⟨(branch_schedule_amended (some "product")).1,
   ((branch_schedule_amended (some "product")).2.2.1 (by decide)).1,
   ((branch_schedule_amended (some "product")).2.2.1 (by decide)).2.1,
   (branch_schedule_amended (some "product")).2.2.2.2 "some llm text" (by decide)⟩

/-- C5: `memory_write_node` never updates a state field (its update is `{}`
on every path); with an absent or empty `memory_to_save` it leaves the store
untouched, and with a non-empty one it hands the store to `save_memory` with
the run's user id (default "default_user"), the proposed content and the
run's mode (default "docs") as category. -/
theorem memory_write_frame (now : String) (store : Store)
    (memory_to_save mode user_id : Option String) :
    ((memory_to_save = none ∨ memory_to_save = some "") →
      memory_write_node now store memory_to_save mode user_id = ([], store))
    ∧ (∀ c, memory_to_save = some c → c ≠ "" →
      memory_write_node now store memory_to_save mode user_id =
        ([], (save_memory_store now store (user_id.getD "default_user") c
            (mode.getD "docs") none).2)) := by
  constructor
  · rintro (rfl | rfl)
    · rfl
    · rfl
  · rintro c rfl hne
    simp [memory_write_node, hne]

/-- C5 witness: both branches evaluated at concrete inputs. -/
theorem memory_write_frame_witness :
    memory_write_node "2024-01-01T00:00:00" [] none none none = ([], [])
    ∧ memory_write_node "2024-01-01T00:00:00" []
        (some "wants to build a lean verifier") none (some "u1")
      = ([], (save_memory_store "2024-01-01T00:00:00" [] "u1"
          "wants to build a lean verifier" "docs" none).2) :=
  ⟨(memory_write_frame "2024-01-01T00:00:00" [] none none none).1 (Or.inl rfl),
   (memory_write_frame "2024-01-01T00:00:00" [] (some "wants to build a lean verifier")
      none (some "u1")).2 "wants to build a lean verifier" rfl (by decide)⟩

/-- C6: `_route_by_mode` is a total function of the state's mode: it maps
the exact values "product", "video" and "research" to themselves and every
other value — a missing mode included — to "docs". -/
theorem route_default_docs :
    route_by_mode (some "product") = "product"
    ∧ route_by_mode (some "video") = "video"
    ∧ route_by_mode (some "research") = "research"
    ∧ route_by_mode none = "docs"
    ∧ ∀ mode : Option String, mode ≠ some "product" → mode ≠ some "video" →
        mode ≠ some "research" → route_by_mode mode = "docs" := by
  refine ⟨by decide, by decide, by decide, by decide, fun mode h1 h2 h3 => ?_⟩
  rcases route_cases mode with ⟨_, hm⟩ | ⟨_, hm⟩ | ⟨_, hm⟩ | ⟨h, _⟩
  · exact absurd hm h1
  · exact absurd hm h2
  · exact absurd hm h3
  · exact h

/-- C6 witness: an unrecognized mode falls back to "docs". -/
theorem route_default_docs_witness :
    route_by_mode (some "weird-mode") = "docs" :=
  route_default_docs.2.2.2.2 (some "weird-mode") (by decide) (by decide) (by decide)

/-- C7: `memory_read_node` returns `none` for mode "video" whatever the
store holds; for every other mode it returns the store's joined snippets for
the user (via `get_memory`), or `none` when that read is empty. -/
theorem memory_read_contract (store : Store) (mode user_id : Option String) :
    (mode = some "video" → memory_read_node store mode user_id = none)
    ∧ (mode ≠ some "video" →
        (get_memory (getUser store (user_id.getD "default_user")) none = "" →
          memory_read_node store mode user_id = none)
        ∧ (get_memory (getUser store (user_id.getD "default_user")) none ≠ "" →
          memory_read_node store mode user_id =
            some (get_memory (getUser store (user_id.getD "default_user")) none))) := by
  constructor
  · rintro rfl
    rfl
  · intro hmode
    constructor
    · intro hempty
      simp [memory_read_node, hmode, hempty]
    · intro hne
      simp [memory_read_node, hmode, hne]

/-- C7 witness: with the same non-empty store, video mode reads `none` and
docs mode reads the stored snippet. -/
theorem memory_read_contract_witness :
    memory_read_node
        [("u1", [mkSnippet "likes formal methods notes" 35 "2024-01-01T00:00:00" "docs"])]
        (some "video") (some "u1") = none
    ∧ memory_read_node
        [("u1", [mkSnippet "likes formal methods notes" 35 "2024-01-01T00:00:00" "docs"])]
        (some "docs") (some "u1") = some "likes formal methods notes" :=
  ⟨(memory_read_contract
      [("u1", [mkSnippet "likes formal methods notes" 35 "2024-01-01T00:00:00" "docs"])]
      (some "video") (some "u1")).1 rfl,
   ((memory_read_contract
      [("u1", [mkSnippet "likes formal methods notes" 35 "2024-01-01T00:00:00" "docs"])]
      (some "docs") (some "u1")).2 (by decide)).2 (by decide)⟩

/-- C8 counterexample: `save_memory` does not clamp an explicit
caller-supplied score.  Score 6.0 (60 tenths) passes the `score < 2.0`
check, is stored as given, and the held snippet's score exceeds 5.0. -/
theorem explicit_score_unclamped_counterexample :
    (save_memory "2024-01-01T00:00:00" [] "alpha beta gamma delta" "general"
        (some 60)).1 = true
    ∧ ((save_memory "2024-01-01T00:00:00" [] "alpha beta gamma delta" "general"
        (some 60)).2.all (fun m => decide (m.score ≤ 50))) = false := by
  decide

/-- One Memory Store mutating operation: a save (any arguments), an
`update_score`, a `delete_memory`, or a `clear_user_memories`. -/
inductive MemOp where
  | save (now snippet category : String) (score : Option Int)
  | adjust (content_hash : String) (new_score : Int)
  | erase (content_hash : String)
  | clear

/-- Run one operation against one user's snippet list. -/
def apply_op (memories : List MemorySnippet) : MemOp → List MemorySnippet
  | .save now snippet category score =>
      (save_memory now memories snippet category score).2
  | .adjust h ns => update_score memories h ns
  | .erase h => delete_memory memories h
  | .clear => []

/-- One user's list after a sequence of operations on the fresh store. -/
def apply_ops (ops : List MemOp) : List MemorySnippet := ops.foldl apply_op []

/-- Whether an operation's explicit save score (if any) stays within 5.0. -/
def op_score_bounded : MemOp → Bool
  | .save _ _ _ (some v) => decide (v ≤ 50)
  | _ => true

theorem apply_op_range (ms : List MemorySnippet) (op : MemOp)
    (hop : op_score_bounded op = true)
    (h : ∀ m ∈ ms, 10 ≤ m.score ∧ m.score ≤ 50) :
    ∀ m ∈ apply_op ms op, 10 ≤ m.score ∧ m.score ≤ 50 := by
  cases op with
  | save now snippet category score =>
    intro m hm
    simp only [apply_op] at hm
    rcases save_memory_snd_cases now ms snippet category score with he | ⟨v, hv, hvs, he⟩
    · rw [he] at hm
      exact h m hm
    · rw [he] at hm
      have h2 := mem_prune_memories m _ hm
      rcases List.mem_append.mp h2.1 with h3 | h3
      · exact h m h3
      · have hm2 : m = mkSnippet (strTrim snippet) v now category := by
          simpa using h3
        have hv20 : (20 : Int) ≤ v := hv
        have hv50 : v ≤ 50 := by
          rcases hvs with hsome | ⟨_, hnone⟩
          · rw [hsome] at hop
            simpa [op_score_bounded] using hop
          · rw [hnone]
            exact (score_memory_range _ _).2
        rw [hm2]
        exact ⟨by simpa [mkSnippet] using (by omega : (10 : Int) ≤ v),
          by simpa [mkSnippet] using hv50⟩
  | adjust hsh ns =>
    intro m hm
    simp only [apply_op, update_score] at hm
    have h2 := mem_prune_memories m _ hm
    rcases mem_set_score_first ms hsh ns m h2.1 with h3 | ⟨m0, _, he⟩
    · exact h m h3
    · rw [he]
      exact ⟨le_max_left _ _, max_le (by norm_num) (min_le_left _ _)⟩
  | erase hsh =>
    intro m hm
    simp only [apply_op, delete_memory] at hm
    exact h m (List.mem_filter.mp hm).1
  | clear =>
    intro m hm
    simp [apply_op] at hm

theorem apply_ops_foldl_range (ops : List MemOp) (ms : List MemorySnippet)
    (hops : ∀ op ∈ ops, op_score_bounded op = true)
    (h : ∀ m ∈ ms, 10 ≤ m.score ∧ m.score ≤ 50) :
    ∀ m ∈ ops.foldl apply_op ms, 10 ≤ m.score ∧ m.score ≤ 50 := by
  induction ops generalizing ms with
  | nil => exact h
  | cons op rest ih =>
    rw [List.foldl_cons]
    exact ih _ (fun o ho => hops o (List.mem_cons_of_mem _ ho))
      (apply_op_range ms op (hops op (List.mem_cons_self _ _)) h)

/-- C8 (amended): after any sequence of Memory Store operations — saves with
or without explicit scores, score updates, deletes and clears — every held
snippet's score lies in [1.0, 5.0] (here [10, 50] tenths), PROVIDED every
explicit caller-supplied save score is ≤ 5.0.  Without that proviso the
invariant fails: `save_memory` stores an explicit score unclamped (the
heuristic score and `update_score` are clamped; explicit scores below 2.0
are rejected, so the lower bound needs no proviso). -/
theorem score_range_invariant_amended (ops : List MemOp)
    (hops : ∀ op ∈ ops, op_score_bounded op = true) :
    ∀ m ∈ apply_ops ops, 10 ≤ m.score ∧ m.score ≤ 50 :=
  apply_ops_foldl_range ops [] hops (by simp)

/-- C8 witness: the range invariant evaluated after one explicit-score save
and one update. -/
theorem score_range_invariant_amended_witness :
    10 ≤ (mkSnippet "alpha beta gamma delta" 45 "2024-01-01T00:00:00" "general").score
    ∧ (mkSnippet "alpha beta gamma delta" 45 "2024-01-01T00:00:00" "general").score
      ≤ 50 :=
  score_range_invariant_amended
    [MemOp.save "2024-01-01T00:00:00" "alpha beta gamma delta" "general" (some 45)]
    (by decide) _ (by decide)

/-- C9: `_load` maps a missing persistence file and any read/parse failure
(unreadable or corrupt data) to the empty store — the function is total, so
no failure escapes — and reads against that store behave as "no memories":
the user's list is empty and `get_memory` returns the empty string. -/
theorem load_failure_safe :
    (∀ now, load now LoadResult.missing = [] ∧ load now LoadResult.failed = [])
    ∧ (∀ now user_id,
        getUser (load now LoadResult.missing) user_id = []
        ∧ getUser (load now LoadResult.failed) user_id = []
        ∧ get_memory (getUser (load now LoadResult.missing) user_id) none = ""
        ∧ get_memory (getUser (load now LoadResult.failed) user_id) none = "") :=
  ⟨fun _ => ⟨rfl, rfl⟩, fun _ _ => ⟨rfl, rfl, rfl, rfl⟩⟩

/-- A store state holding ten snippets, all scored 4.0, sharing one
timestamp. -/
def crowded_store : List MemorySnippet :=
  [mkSnippet "stored note one" 40 "2024-01-01T00:00:00" "general",
   mkSnippet "stored note two" 40 "2024-01-01T00:00:00" "general",
   mkSnippet "stored note three" 40 "2024-01-01T00:00:00" "general",
   mkSnippet "stored note four" 40 "2024-01-01T00:00:00" "general",
   mkSnippet "stored note five" 40 "2024-01-01T00:00:00" "general",
   mkSnippet "stored note six" 40 "2024-01-01T00:00:00" "general",
   mkSnippet "stored note seven" 40 "2024-01-01T00:00:00" "general",
   mkSnippet "stored note eight" 40 "2024-01-01T00:00:00" "general",
   mkSnippet "stored note nine" 40 "2024-01-01T00:00:00" "general",
   mkSnippet "stored note ten" 40 "2024-01-01T00:00:00" "general"]

/-- C10: `save_memory` can return true while the candidate is absent
afterwards.  With ten held snippets all scoring 4.0 — strictly above the
candidate's computed 3.0 — the candidate is accepted (true), appended, and
immediately evicted by the prune, which keeps exactly the original ten; so a
true return does not imply the snippet was persisted. -/
theorem accepted_but_evicted :
    (save_memory "2024-01-02T00:00:00" crowded_store "alpha beta gamma delta"
        "general" none).1 = true
    ∧ ((save_memory "2024-01-02T00:00:00" crowded_store "alpha beta gamma delta"
        "general" none).2.all (fun m => m.content != "alpha beta gamma delta")) = true
    ∧ crowded_store.length = 10
    ∧ (crowded_store.all
        (fun m => decide (score_memory "alpha beta gamma delta" "general" < m.score)))
      = true
    ∧ (save_memory "2024-01-02T00:00:00" crowded_store "alpha beta gamma delta"
        "general" none).2 = crowded_store := by
  decide
